import Mathlib

/-!
Verification of the scoring engine of the Spiritual Path Assessment tool
(`app.py`).  The Python dictionaries are embedded as association lists so
that insertion order — observable through `dict.items()` and hence through
the ranked output — is modelled faithfully.  All machine integers involved
are non-negative and small, so they are embedded as `Nat`.
-/

namespace SpiritualPath

/-- Python `d.get(k, default)` on an association list: the value of the
first entry whose key matches, else the default. -/
def lookupD {K V : Type} [DecidableEq K] : List (K × V) → K → V → V
  | [], _, d => d
  | e :: m, k, d => if e.1 = k then e.2 else lookupD m k d

/-- Python `d[k]` / `k in d` combined: the value of the first entry whose
key matches, `none` when the key is absent. -/
def lookupO {K V : Type} [DecidableEq K] : List (K × V) → K → Option V
  | [], _ => none
  | e :: m, k => if e.1 = k then some e.2 else lookupO m k

/-- Python `d[k] = d.get(k, 0) + v` on an insertion-ordered dict: update the
existing entry in place, or append a new entry at the end. -/
def dictAdd {K : Type} [DecidableEq K] : List (K × Nat) → K → Nat → List (K × Nat)
  | [], k, v => [(k, v)]
  | e :: m, k, v => if e.1 = k then (e.1, e.2 + v) :: m else e :: dictAdd m k v

/-- Python `s.add(k)` on a set, modelled as a duplicate-free list; insertion
order is irrelevant because the engine only queries membership. -/
def setInsert {K : Type} [DecidableEq K] (s : List K) (k : K) : List K :=
  if k ∈ s then s else s ++ [k]

/-- An answer submitted by the user: the JSON object
`\x7b"question_id": ..., "answer": ...\x7d`. -/
structure Answer where
  question_id : Nat
  answer : String
deriving DecidableEq

/-- A question of the bank: id, prompt, and the insertion-ordered mapping
from answer-option label to that option's contribution map (tradition key
to base point value). -/
structure Question where
  id : Nat
  question : String
  options : List (String × List (String × Nat))
deriving DecidableEq

/-- A tradition descriptor: the static record from the RELIGIONS table. -/
structure TraditionInfo where
  name : String
  description : String
  practices : String
  core_beliefs : String
deriving DecidableEq

/-- One output record of `calculate_results`: the descriptor copied from
the RELIGIONS table with "score" and "percentage" added.  The `key` field
records which table entry was copied (in the source it is the dict key the
loop is standing on when it copies). -/
structure Recommendation where
  key : String
  info : TraditionInfo
  score : Nat
  percentage : Nat
deriving DecidableEq

/-- `canon` from app.py: `TRADITION_ALIASES.get(key, key)`, parameterised
over the alias table it reads. -/
def canon (aliases : List (String × String)) (key : String) : String :=
  lookupD aliases key key

/-- `next((q for q in QUESTIONS if q["id"] == answer["question_id"]), None)`:
the first question of the bank with the given id. -/
def findQuestion (bank : List Question) (qid : Nat) : Option Question :=
  bank.find? (fun q => q.id == qid)

/-- `QUESTION_WEIGHTS.get(question_id, 1)`: the question weight, default 1. -/
def weightOf (weights : List (Nat × Nat)) (qid : Nat) : Nat :=
  lookupD weights qid 1

/-- The guard `if question and answer["answer"] in question["options"]` and
the lookup `question["options"][answer["answer"]]` combined: the matched
option's contribution map when the answer's question id is found and its
label is one of that question's options, `none` otherwise. -/
def matchedOption (bank : List Question) (a : Answer) : Option (List (String × Nat)) :=
  match findQuestion bank a.question_id with
  | none => none
  | some q => lookupO q.options a.answer

/-- The body of the inner loop over `points_map.items()` (app.py lines
425-432): canonicalise the raw key, add base points times the question
weight to its score entry, and record it in `touched_this_question`. -/
def scoreStep (aliases : List (String × String)) (w : Nat)
    (st : List (String × Nat) × List String) (e : String × Nat) :
    List (String × Nat) × List String :=
  (dictAdd st.1 (canon aliases e.1) (e.2 * w), setInsert st.2 (canon aliases e.1))

/-- The inner loop over `points_map.items()`, starting from the current
scores and an empty `touched_this_question` set. -/
def scoreEntries (aliases : List (String × String)) (w : Nat)
    (pm : List (String × Nat)) (scores : List (String × Nat)) :
    List (String × Nat) × List String :=
  pm.foldl (scoreStep aliases w) (scores, [])

/-- The coverage update (app.py lines 434-436): one increment per canonical
key touched during this question. -/
def bumpCoverage (cov : List (String × Nat)) (touched : List String) :
    List (String × Nat) :=
  touched.foldl (fun c k => dictAdd c k 1) cov

/-- The score accumulator and the coverage counter, built per submission. -/
structure Tally where
  scores : List (String × Nat)
  coverage : List (String × Nat)
deriving DecidableEq

/-- Processing of a single answer in the first loop of `calculate_results`
(app.py lines 416-436): an answer whose question id is not found, or whose
label is not an option of its question, leaves the tally unchanged. -/
def tallyAnswer (bank : List Question) (weights : List (Nat × Nat))
    (aliases : List (String × String)) (t : Tally) (a : Answer) : Tally :=
  match matchedOption bank a with
  | none => t
  | some pm =>
    let st := scoreEntries aliases (weightOf weights a.question_id) pm t.scores
    { scores := st.1, coverage := bumpCoverage t.coverage st.2 }

/-- The whole first loop of `calculate_results`: fold the answers into the
initially empty accumulators. -/
def tally (bank : List Question) (weights : List (Nat × Nat))
    (aliases : List (String × String)) (answers : List Answer) : Tally :=
  answers.foldl (tallyAnswer bank weights aliases) ⟨[], []⟩

/-- The `max_option_points` inner loop (app.py lines 444-447): the maximum
base point value across the entries of all options of the question, with 0
for a question whose options are all empty (the `if option_scores` guard
makes an empty contribution map contribute nothing). -/
def maxOptionPoints (q : Question) : Nat :=
  q.options.foldl (fun m o => o.2.foldl (fun m2 e => Nat.max m2 e.2) m) 0

/-- The body of the `max_possible_score` loop: an answer whose question id
is found contributes `max_option_points * question_weight`, whether or not
its option label is known; other answers contribute 0. -/
def maxStep (bank : List Question) (weights : List (Nat × Nat))
    (acc : Nat) (a : Answer) : Nat :=
  match findQuestion bank a.question_id with
  | none => acc
  | some q => acc + maxOptionPoints q * weightOf weights a.question_id

/-- The `max_possible_score` loop (app.py lines 439-450). -/
def maxPossibleScore (bank : List Question) (weights : List (Nat × Nat))
    (answers : List Answer) : Nat :=
  answers.foldl (maxStep bank weights) 0

/-- The TRADITION_ALIASES table of app.py (lines 74-83). -/
def TRADITION_ALIASES : List (String × String) :=
  [("secular", "humanism"),
   ("secularism", "humanism"),
   ("spiritualism", "spiritual_not_religious"),
   ("wicca", "paganism"),
   ("zen", "buddhism"),
   ("pantheism", "paganism"),
   ("unitarian", "spiritual_not_religious"),
   ("deism", "agnosticism")]

/-- The QUESTION_WEIGHTS table of app.py (lines 90-100). -/
def QUESTION_WEIGHTS : List (Nat × Nat) :=
  [(1, 5), (2, 3), (3, 4), (4, 4), (5, 3), (6, 3), (7, 3), (8, 3), (9, 2)]

/-- The QUESTIONS bank of app.py (lines 103-302). -/
def QUESTIONS : List Question :=
  [{ id := 1,
     question := "What is your view on the nature of the divine?",
     options :=
       [("One supreme God who created everything",
         [("christianity", 5), ("islam", 5), ("judaism", 5), ("sikhism", 4)]),
        ("Multiple gods and goddesses",
         [("hinduism", 5), ("paganism", 5), ("shintoism", 3)]),
        ("A universal energy or force",
         [("taoism", 5), ("buddhism", 4), ("new_age", 4), ("spiritual_not_religious", 3)]),
        ("No divine being, focus on human potential",
         [("humanism", 5), ("atheism", 5), ("stoicism", 3), ("confucianism", 2)]),
        ("Uncertain or unknowable",
         [("agnosticism", 5), ("spiritual_not_religious", 2)])] },
   { id := 2,
     question := "How do you prefer to connect with spirituality?",
     options :=
       [("Through organized worship and community",
         [("christianity", 4), ("islam", 4), ("judaism", 4), ("sikhism", 3)]),
        ("Through personal meditation and reflection",
         [("buddhism", 5), ("hinduism", 4), ("taoism", 4), ("jainism", 4)]),
        ("Through nature and natural cycles",
         [("paganism", 5), ("indigenous", 5), ("shintoism", 4)]),
        ("Through reason and philosophy",
         [("stoicism", 5), ("humanism", 4), ("confucianism", 3)]),
        ("I don\x27t feel the need for spiritual connection",
         [("atheism", 5), ("humanism", 2)])] },
   { id := 3,
     question := "What is your belief about the afterlife?",
     options :=
       [("Heaven or Hell based on faith/deeds",
         [("christianity", 5), ("islam", 5), ("judaism", 3)]),
        ("Reincarnation until enlightenment",
         [("hinduism", 5), ("buddhism", 5), ("jainism", 4), ("sikhism", 3)]),
        ("Ancestral realm or spiritual world",
         [("indigenous", 4), ("paganism", 3), ("shintoism", 3), ("confucianism", 2)]),
        ("No afterlife, this life is all there is",
         [("atheism", 5), ("humanism", 4), ("stoicism", 2)]),
        ("Unsure or open to possibilities",
         [("agnosticism", 4), ("new_age", 3), ("spiritual_not_religious", 3)])] },
   { id := 4,
     question := "What guides your moral and ethical decisions?",
     options :=
       [("Sacred texts and religious teachings",
         [("islam", 5), ("christianity", 5), ("judaism", 5), ("sikhism", 3)]),
        ("Universal principles of compassion and mindfulness",
         [("buddhism", 5), ("jainism", 5), ("hinduism", 3)]),
        ("Harmony with nature and balance",
         [("taoism", 5), ("indigenous", 4), ("shintoism", 3), ("paganism", 3)]),
        ("Reason, empathy, and human rights",
         [("humanism", 5), ("atheism", 3), ("stoicism", 3)]),
        ("Personal intuition and inner wisdom",
         [("spiritual_not_religious", 5), ("new_age", 4)]),
        ("Virtue, duty, and social harmony",
         [("confucianism", 5), ("stoicism", 4)])] },
   { id := 5,
     question := "How do you approach prayer or meditation?",
     options :=
       [("Structured daily prayers at set times (e.g., 5 times daily)",
         [("islam", 5), ("sikhism", 3)]),
        ("Regular personal prayer and church attendance",
         [("christianity", 5), ("judaism", 4)]),
        ("Daily meditation or mindfulness practice",
         [("buddhism", 5), ("hinduism", 4), ("jainism", 4)]),
        ("Occasional prayer or reflection when needed",
         [("christianity", 2), ("judaism", 2), ("spiritual_not_religious", 3), ("new_age", 2)]),
        ("Meditation for inner peace, not religious practice",
         [("stoicism", 3), ("humanism", 2), ("buddhism", 2)]),
        ("I don\x27t pray or meditate",
         [("atheism", 4), ("humanism", 3)])] },
   { id := 6,
     question := "What role do rituals and ceremonies play in your life?",
     options :=
       [("Essential - weekly services and holy day observances",
         [("christianity", 4), ("islam", 4), ("judaism", 5), ("hinduism", 3)]),
        ("Important - seasonal celebrations and nature rituals",
         [("paganism", 5), ("indigenous", 5), ("shintoism", 4)]),
        ("Helpful - personal rituals that feel meaningful",
         [("new_age", 4), ("spiritual_not_religious", 4), ("hinduism", 2)]),
        ("Minimal - prefer contemplation and philosophy",
         [("stoicism", 4), ("humanism", 3), ("confucianism", 2), ("agnosticism", 2)]),
        ("None - I don\x27t practice rituals",
         [("atheism", 4), ("humanism", 2)])] },
   { id := 7,
     question := "How do you view the relationship between humans and nature?",
     options :=
       [("Humans are stewards of God\x27s creation",
         [("christianity", 4), ("islam", 4), ("judaism", 4)]),
        ("All life is interconnected and sacred",
         [("buddhism", 5), ("hinduism", 4), ("jainism", 5), ("indigenous", 4)]),
        ("Nature itself is divine and should be revered",
         [("paganism", 5), ("indigenous", 4), ("shintoism", 5), ("taoism", 3)]),
        ("Nature follows natural laws we can study",
         [("atheism", 4), ("humanism", 4), ("stoicism", 2)]),
        ("We should live in harmony with natural flow",
         [("taoism", 5), ("buddhism", 3), ("shintoism", 3), ("indigenous", 3)])] },
   { id := 8,
     question := "What is your view on suffering and its purpose?",
     options :=
       [("A test of faith or part of God\x27s plan",
         [("christianity", 4), ("islam", 4), ("judaism", 3)]),
        ("Result of attachment, desire, and ignorance",
         [("buddhism", 5), ("stoicism", 3), ("jainism", 3)]),
        ("Karma from past actions and choices",
         [("hinduism", 5), ("sikhism", 4), ("buddhism", 3), ("jainism", 3)]),
        ("Natural part of life without cosmic meaning",
         [("atheism", 5), ("humanism", 3), ("stoicism", 2)]),
        ("An opportunity for spiritual growth",
         [("new_age", 4), ("spiritual_not_religious", 3), ("christianity", 2)]),
        ("To be accepted with virtue and equanimity",
         [("stoicism", 5), ("buddhism", 2), ("confucianism", 2)])] },
   { id := 9,
     question := "How important is community in your spiritual life?",
     options :=
       [("Very important - prefer group worship and fellowship",
         [("christianity", 4), ("islam", 4), ("sikhism", 5), ("judaism", 4)]),
        ("Somewhat important - personal practice matters more",
         [("buddhism", 3), ("hinduism", 3), ("taoism", 2)]),
        ("Community of like-minded spiritual seekers",
         [("paganism", 4), ("spiritual_not_religious", 4), ("new_age", 3)]),
        ("Not important - spirituality is deeply personal",
         [("spiritual_not_religious", 3), ("agnosticism", 3), ("taoism", 2)]),
        ("Prefer secular community over religious",
         [("humanism", 4), ("atheism", 4), ("stoicism", 2)])] }]

/-- The RELIGIONS descriptor table of app.py (lines 305-324). -/
def RELIGIONS : List (String × TraditionInfo) :=
  [("christianity",
    { name := "Christianity",
      description := "Faith in Jesus Christ emphasizing love, forgiveness, and salvation through grace.",
      practices := "Prayer, Bible study, church, communion",
      core_beliefs := "Trinity, salvation through Christ, eternal life" }),
   ("islam",
    { name := "Islam",
      description := "Submission to Allah through Prophet Muhammad\x27s teachings and the Quran.",
      practices := "Five daily prayers, Ramadan fasting, charity, Mecca pilgrimage",
      core_beliefs := "One God (Allah), Muhammad as prophet, Day of Judgment" }),
   ("buddhism",
    { name := "Buddhism",
      description := "Path to enlightenment through mindfulness and compassion.",
      practices := "Meditation, mindfulness, Eightfold Path",
      core_beliefs := "Four Noble Truths, impermanence, ending suffering" }),
   ("hinduism",
    { name := "Hinduism",
      description := "Ancient tradition embracing diverse paths to spiritual realization.",
      practices := "Yoga, meditation, puja, festivals",
      core_beliefs := "Dharma, karma, reincarnation, moksha, multiple paths" }),
   ("judaism",
    { name := "Judaism",
      description := "Covenant with God through Torah and Jewish community.",
      practices := "Shabbat, Torah study, prayer, kosher",
      core_beliefs := "One God, Torah as divine law, ethical monotheism" }),
   ("taoism",
    { name := "Taoism",
      description := "Living in harmony with the Tao - the natural order.",
      practices := "Meditation, tai chi, wu wei, simplicity",
      core_beliefs := "Yin-yang balance, harmony with nature" }),
   ("paganism",
    { name := "Modern Paganism",
      description := "Nature-based spirituality honoring seasonal cycles.",
      practices := "Seasonal celebrations, rituals, nature work",
      core_beliefs := "Nature as sacred, multiple deities" }),
   ("humanism",
    { name := "Secular Humanism",
      description := "Ethics emphasizing human values and reason without supernatural beliefs.",
      practices := "Critical thinking, ethical living, community service",
      core_beliefs := "Human dignity, reason, science, secular ethics" }),
   ("atheism",
    { name := "Atheism",
      description := "Lack of belief in deities with naturalistic worldview.",
      practices := "Evidence-based thinking, secular community",
      core_beliefs := "No gods, natural explanations, this-life focus" }),
   ("agnosticism",
    { name := "Agnosticism",
      description := "Divine existence is unknown or unknowable.",
      practices := "Philosophical inquiry, ethical living",
      core_beliefs := "Uncertainty about divine, questions over answers" }),
   ("new_age",
    { name := "New Age Spirituality",
      description := "Eclectic approach emphasizing personal growth.",
      practices := "Meditation, energy work, crystals, yoga",
      core_beliefs := "Personal transformation, universal consciousness" }),
   ("spiritual_not_religious",
    { name := "Spiritual But Not Religious",
      description := "Personal spirituality without organized religion.",
      practices := "Personal practices, meditation, self-reflection",
      core_beliefs := "Individual journey, authenticity, diverse wisdom" }),
   ("sikhism",
    { name := "Sikhism",
      description := "One God emphasizing service, equality, and meditation.",
      practices := "Prayer, meditation, community service, 5 Ks",
      core_beliefs := "One God, equality, honest living, sharing" }),
   ("indigenous",
    { name := "Indigenous Spirituality",
      description := "Traditional practices honoring ancestors and land.",
      practices := "Ceremonies, storytelling, seasonal rituals",
      core_beliefs := "Land connection, ancestor veneration, reciprocity" }),
   ("jainism",
    { name := "Jainism",
      description := "Ancient path emphasizing non-violence and spiritual purification.",
      practices := "Meditation, fasting, non-violence, self-discipline",
      core_beliefs := "Ahimsa (non-violence), karma liberation, asceticism" }),
   ("shintoism",
    { name := "Shinto",
      description := "Japanese tradition honoring kami spirits and natural harmony.",
      practices := "Shrine visits, purification rituals, festivals",
      core_beliefs := "Kami reverence, purity, harmony with nature" }),
   ("stoicism",
    { name := "Stoicism",
      description := "Philosophy emphasizing virtue, reason, and acceptance of fate.",
      practices := "Contemplation, virtue practice, rational thinking",
      core_beliefs := "Virtue, reason, acceptance, inner peace" }),
   ("confucianism",
    { name := "Confucianism",
      description := "Philosophy emphasizing moral cultivation and social harmony.",
      practices := "Ritual propriety, study, self-cultivation",
      core_beliefs := "Filial piety, benevolence, social harmony" })]

/-- The sort key `lambda x: (x[1], coverage.get(x[0], 0))` of an
accumulator entry. -/
def sortKey (coverage : List (String × Nat)) (e : String × Nat) : Nat × Nat :=
  (e.2, lookupD coverage e.1 0)

/-- Lexicographic greater-or-equal on (score, coverage) pairs: Python tuple
comparison under `reverse=True`. -/
def keyGE (p q : Nat × Nat) : Prop :=
  q.1 < p.1 ∨ (p.1 = q.1 ∧ q.2 ≤ p.2)

instance : ∀ p q, Decidable (keyGE p q) := fun _ _ => by
  unfold keyGE; infer_instance

/-- `sorted(scores.items(), key=lambda x: (x[1], coverage.get(x[0], 0)),
reverse=True)`.  Python's sort is stable and `reverse=True` keeps equal
elements in their original (insertion) order; insertion sort under the
greater-or-equal relation is exactly that stable descending sort. -/
def rankedScores (coverage : List (String × Nat)) (scores : List (String × Nat)) :
    List (String × Nat) :=
  scores.insertionSort (fun a b => keyGE (sortKey coverage a) (sortKey coverage b))

/-- Python `round` (half to even) applied to the exact rational `n / d`
with `d > 0`: models `round((score / max_possible_score) * 100)` with the
float arithmetic idealised as exact rational arithmetic. -/
def pyRound (n d : Nat) : Nat :=
  let q := n / d
  let r := n % d
  if 2 * r < d then q
  else if d < 2 * r then q + 1
  else if q % 2 = 0 then q else q + 1

/-- The percentage of one recommendation (app.py lines 467-471):
`round(score / max_possible_score * 100)` when the denominator is
positive, else 0. -/
def percentageOf (maxPossible score : Nat) : Nat :=
  if 0 < maxPossible then pyRound (score * 100) maxPossible else 0

/-- The top-3 loop of `calculate_results` (app.py lines 460-478): walk the
ranked entries, skip keys absent from the religions table, and stop once
`slots` recommendations (3 in the caller, counted there by
`len(recommendations) == 3`) have been emitted. -/
def buildRecommendations (religions : List (String × TraditionInfo))
    (maxPossible : Nat) : Nat → List (String × Nat) → List Recommendation
  | _, [] => []
  | slots, e :: rest =>
    match lookupO religions e.1 with
    | none => buildRecommendations religions maxPossible slots rest
    | some info =>
      let r : Recommendation :=
        { key := e.1, info := info, score := e.2,
          percentage := percentageOf maxPossible e.2 }
      if slots ≤ 1 then [r]
      else r :: buildRecommendations religions maxPossible (slots - 1) rest

/-- `calculate_results` from app.py (lines 407-479), parameterised over the
static tables it reads (QUESTIONS, QUESTION_WEIGHTS, TRADITION_ALIASES,
RELIGIONS). -/
def calculate_results (bank : List Question) (weights : List (Nat × Nat))
    (aliases : List (String × String)) (religions : List (String × TraditionInfo))
    (answers : List Answer) : List Recommendation :=
  let t := tally bank weights aliases answers
  buildRecommendations religions (maxPossibleScore bank weights answers) 3
    (rankedScores t.coverage t.scores)

/-- The validation-and-scoring slice of the /submit_assessment handler
(app.py lines 840-847): the session check, the storage of the results and
the response envelope are elided.  The handler rejects with the
user-visible message when the answer count differs from the size of the
question bank; otherwise it invokes `calculate_results` on the submission
as received. -/
def submit_assessment (answers : List Answer) : Except String (List Recommendation) :=
  if answers.length ≠ QUESTIONS.length then
    Except.error "Please answer all questions!"
  else
    Except.ok (calculate_results QUESTIONS QUESTION_WEIGHTS TRADITION_ALIASES RELIGIONS answers)

/-! ### Specification-side descriptions

These definitions restate, in the spec's words, quantities the engine
computes; the theorems below compare them with the embedded source. -/

/-- The contribution of one answer to canonical key `k` as the spec words
it: base point value times question weight (weight defaulting to 1), summed
over the contribution-map entries whose raw key canonicalises to `k`; zero
when the question id is not found or the option label is unknown. -/
def answerContribution (bank : List Question) (weights : List (Nat × Nat))
    (aliases : List (String × String)) (k : String) (a : Answer) : Nat :=
  match matchedOption bank a with
  | none => 0
  | some pm =>
    ((pm.filter (fun e => canon aliases e.1 == k)).map
      (fun e => e.2 * weightOf weights a.question_id)).sum

/-- Whether an answer is matched (question id found, option label known)
and its option's contribution map mentions a raw key canonicalising to
`k`. -/
def answerTouches (bank : List Question) (aliases : List (String × String))
    (k : String) (a : Answer) : Bool :=
  match matchedOption bank a with
  | none => false
  | some pm => pm.any (fun e => canon aliases e.1 == k)

/-- The accumulated score of a canonical key: `scores.get(k, 0)` after the
first loop. -/
def scoreOf (bank : List Question) (weights : List (Nat × Nat))
    (aliases : List (String × String)) (answers : List Answer) (k : String) : Nat :=
  lookupD (tally bank weights aliases answers).scores k 0

/-- The coverage counter of a canonical key: `coverage.get(k, 0)` after the
first loop. -/
def coverageOf (bank : List Question) (weights : List (Nat × Nat))
    (aliases : List (String × String)) (answers : List Answer) (k : String) : Nat :=
  lookupD (tally bank weights aliases answers).coverage k 0

/-- Spec-side: the maximum base-point value occurring across any option of
the question (0 when there are no entries at all), stated as a fold over
the concatenated value lists rather than as the source's two nested
accumulator loops. -/
def maxBasePoints (q : Question) : Nat :=
  ((q.options.map (fun o => o.2.map Prod.snd)).flatten).foldr Nat.max 0

/-- Exactly one answer per question id of the bank. -/
def exactlyOnePerQuestion (bank : List Question) (answers : List Answer) : Prop :=
  ∀ q ∈ bank, (answers.filter (fun a => a.question_id == q.id)).length = 1

/-- The spec's input contract for a valid submission: exactly one answer
per question id of the bank, every answer matching a known question and a
known option label. -/
def validSubmission (bank : List Question) (answers : List Answer) : Prop :=
  exactlyOnePerQuestion bank answers
    ∧ ∀ a ∈ answers, (matchedOption bank a).isSome = true

/-- No two raw keys inside the same contribution map of the bank fold to
the same canonical key. -/
def noAliasCollision (bank : List Question) (aliases : List (String × String)) : Prop :=
  ∀ q ∈ bank, ∀ o ∈ q.options, (o.2.map (fun e => canon aliases e.1)).Nodup

instance (bank : List Question) (answers : List Answer) :
    Decidable (exactlyOnePerQuestion bank answers) := by
  unfold exactlyOnePerQuestion; infer_instance

instance (bank : List Question) (answers : List Answer) :
    Decidable (validSubmission bank answers) := by
  unfold validSubmission; infer_instance

instance (bank : List Question) (aliases : List (String × String)) :
    Decidable (noAliasCollision bank aliases) := by
  unfold noAliasCollision; infer_instance

/-- A two-question bank used to instantiate the general theorems on
concrete inputs. -/
def twoQuestionBank : List Question :=
  [⟨1, "first question", [("A", [("buddhism", 3)])]⟩,
   ⟨2, "second question", [("B", [("buddhism", 2)])]⟩]

/-- A one-question bank whose single option maps an alias and its canonical
key in the same contribution map. -/
def collisionBank : List Question :=
  [⟨1, "collision question", [("A", [("wicca", 3), ("paganism", 2)])]⟩]

/-- A single question with one option, for concrete instantiations. -/
def oneQuestion : Question :=
  ⟨1, "single question", [("A", [("buddhism", 3)])]⟩

/-- A one-question bank with a single option. -/
def oneQuestionBank : List Question :=
  [oneQuestion]

/-! ### Lemmas about the dictionary primitives -/

theorem lookupD_eq_getD {K V : Type} [DecidableEq K] (m : List (K × V)) (k : K) (d : V) :
    lookupD m k d = (lookupO m k).getD d := by
  induction m with
  | nil => rfl
  | cons e m ih => by_cases h : e.1 = k <;> simp [lookupD, lookupO, h, ih]

theorem lookupO_mem {K V : Type} [DecidableEq K] {m : List (K × V)} {k : K} {v : V}
    (h : lookupO m k = some v) : (k, v) ∈ m := by
  induction m with
  | nil => simp [lookupO] at h
  | cons e m ih =>
    by_cases he : e.1 = k
    · rw [lookupO, if_pos he] at h
      obtain ⟨e1, e2⟩ := e
      cases h
      cases he
      exact List.mem_cons_self _ _
    · rw [lookupO, if_neg he] at h
      exact List.mem_cons_of_mem _ (ih h)

theorem mem_lookupD_of_nodup {K : Type} [DecidableEq K] {m : List (K × Nat)} {k : K} {v : Nat}
    (hnd : (m.map Prod.fst).Nodup) (h : (k, v) ∈ m) : lookupD m k 0 = v := by
  induction m with
  | nil => simp at h
  | cons e m ih =>
    rw [List.map_cons, List.nodup_cons] at hnd
    rcases List.mem_cons.mp h with h1 | h1
    · rw [← h1, lookupD, if_pos rfl]
    · have hk : e.1 ≠ k := by
        intro hek
        exact hnd.1 (hek ▸ List.mem_map_of_mem Prod.fst h1)
      rw [lookupD, if_neg hk]
      exact ih hnd.2 h1

theorem lookupD_dictAdd {K : Type} [DecidableEq K] (m : List (K × Nat)) (k k' : K) (v : Nat) :
    lookupD (dictAdd m k v) k' 0
      = lookupD m k' 0 + if k = k' then v else 0 := by
  induction m with
  | nil => by_cases h : k = k' <;> simp [dictAdd, lookupD, h]
  | cons e m ih =>
    by_cases h1 : e.1 = k
    · by_cases h2 : e.1 = k' <;>
        simp [dictAdd, lookupD, h1, h2, h1 ▸ h2]
    · by_cases h2 : e.1 = k'
      · have hne : k ≠ k' := fun hkk => h1 (h2.trans hkk.symm)
        simp [dictAdd, lookupD, h1, h2, hne, Ne.symm hne]
      · simp [dictAdd, lookupD, h1, h2, ih]

theorem mem_setInsert {K : Type} [DecidableEq K] (s : List K) (k a : K) :
    a ∈ setInsert s k ↔ a ∈ s ∨ a = k := by
  by_cases h : k ∈ s
  · rw [setInsert, if_pos h]
    exact ⟨Or.inl, fun h' => h'.elim id (fun e => e ▸ h)⟩
  · rw [setInsert, if_neg h]
    simp

theorem nodup_setInsert {K : Type} [DecidableEq K] {s : List K} (k : K)
    (hnd : s.Nodup) : (setInsert s k).Nodup := by
  by_cases h : k ∈ s
  · rwa [setInsert, if_pos h]
  · rw [setInsert, if_neg h]
    simp [List.nodup_append, hnd, h]

theorem map_fst_dictAdd {K : Type} [DecidableEq K] (m : List (K × Nat)) (k : K) (v : Nat) :
    (dictAdd m k v).map Prod.fst = setInsert (m.map Prod.fst) k := by
  induction m with
  | nil => simp [dictAdd, setInsert]
  | cons e m ih =>
    by_cases h : e.1 = k
    · have hk : k ∈ (e :: m).map Prod.fst := by simp [← h]
      simp [dictAdd, h, setInsert, hk]
    · by_cases h2 : k ∈ m.map Prod.fst
      · have hk : k ∈ (e :: m).map Prod.fst := by simp [h2]
        simp [dictAdd, h, setInsert, hk, h2, ih]
      · have hke : k ≠ e.1 := fun hh => h hh.symm
        have hk : k ∉ (e :: m).map Prod.fst := by simp [h2, hke]
        simp [dictAdd, h, setInsert, hk, h2, ih, hke]

/-! ### Lemmas about the inner scoring loop -/

theorem foldl_scoreStep_fst_lookup (aliases : List (String × String)) (w : Nat)
    (pm : List (String × Nat)) : ∀ (sc : List (String × Nat)) (tc : List String) (k : String),
    lookupD (pm.foldl (scoreStep aliases w) (sc, tc)).1 k 0
      = lookupD sc k 0
        + ((pm.filter (fun e => canon aliases e.1 == k)).map (fun e => e.2 * w)).sum := by
  induction pm with
  | nil => intro sc tc k; simp
  | cons e pm ih =>
    intro sc tc k
    simp only [List.foldl_cons]
    rw [show scoreStep aliases w (sc, tc) e
        = (dictAdd sc (canon aliases e.1) (e.2 * w), setInsert tc (canon aliases e.1)) from rfl]
    rw [ih, lookupD_dictAdd]
    by_cases h : canon aliases e.1 = k <;>
      simp [List.filter_cons, h] <;> omega

theorem foldl_scoreStep_snd_mem (aliases : List (String × String)) (w : Nat)
    (pm : List (String × Nat)) : ∀ (sc : List (String × Nat)) (tc : List String) (k : String),
    k ∈ (pm.foldl (scoreStep aliases w) (sc, tc)).2
      ↔ k ∈ tc ∨ ∃ e ∈ pm, canon aliases e.1 = k := by
  induction pm with
  | nil => intro sc tc k; simp
  | cons e pm ih =>
    intro sc tc k
    simp only [List.foldl_cons]
    rw [show scoreStep aliases w (sc, tc) e
        = (dictAdd sc (canon aliases e.1) (e.2 * w), setInsert tc (canon aliases e.1)) from rfl]
    rw [ih]
    simp only [mem_setInsert, List.mem_cons]
    constructor
    · rintro ((h | h) | ⟨e', he', h⟩)
      · exact Or.inl h
      · exact Or.inr ⟨e, Or.inl rfl, h.symm⟩
      · exact Or.inr ⟨e', Or.inr he', h⟩
    · rintro (h | ⟨e', (he' | he'), h⟩)
      · exact Or.inl (Or.inl h)
      · exact Or.inl (Or.inr (he' ▸ h).symm)
      · exact Or.inr ⟨e', he', h⟩

theorem foldl_scoreStep_snd_nodup (aliases : List (String × String)) (w : Nat)
    (pm : List (String × Nat)) : ∀ (sc : List (String × Nat)) (tc : List String),
    tc.Nodup → (pm.foldl (scoreStep aliases w) (sc, tc)).2.Nodup := by
  induction pm with
  | nil => intro sc tc h; simpa using h
  | cons e pm ih =>
    intro sc tc h
    simp only [List.foldl_cons]
    exact ih _ _ (nodup_setInsert _ h)

theorem foldl_scoreStep_fst_keys_mem (aliases : List (String × String)) (w : Nat)
    (pm : List (String × Nat)) : ∀ (sc : List (String × Nat)) (tc : List String) (k : String),
    k ∈ (pm.foldl (scoreStep aliases w) (sc, tc)).1.map Prod.fst
      ↔ k ∈ sc.map Prod.fst ∨ ∃ e ∈ pm, canon aliases e.1 = k := by
  induction pm with
  | nil => intro sc tc k; simp
  | cons e pm ih =>
    intro sc tc k
    simp only [List.foldl_cons]
    rw [show scoreStep aliases w (sc, tc) e
        = (dictAdd sc (canon aliases e.1) (e.2 * w), setInsert tc (canon aliases e.1)) from rfl]
    rw [ih, map_fst_dictAdd]
    simp only [mem_setInsert, List.mem_cons]
    constructor
    · rintro ((h | h) | ⟨e', he', h⟩)
      · exact Or.inl h
      · exact Or.inr ⟨e, Or.inl rfl, h.symm⟩
      · exact Or.inr ⟨e', Or.inr he', h⟩
    · rintro (h | ⟨e', (he' | he'), h⟩)
      · exact Or.inl (Or.inl h)
      · exact Or.inl (Or.inr (he' ▸ h).symm)
      · exact Or.inr ⟨e', he', h⟩

theorem foldl_scoreStep_fst_keys_nodup (aliases : List (String × String)) (w : Nat)
    (pm : List (String × Nat)) : ∀ (sc : List (String × Nat)) (tc : List String),
    (sc.map Prod.fst).Nodup → ((pm.foldl (scoreStep aliases w) (sc, tc)).1.map Prod.fst).Nodup := by
  induction pm with
  | nil => intro sc tc h; simpa using h
  | cons e pm ih =>
    intro sc tc h
    simp only [List.foldl_cons]
    refine ih _ _ ?_
    rw [show ((sc, tc) : List (String × Nat) × List String).1 = sc from rfl, map_fst_dictAdd]
    exact nodup_setInsert _ h

theorem lookupD_bumpCoverage (touched : List String) :
    ∀ (cov : List (String × Nat)) (k : String), touched.Nodup →
    lookupD (bumpCoverage cov touched) k 0
      = lookupD cov k 0 + (if k ∈ touched then 1 else 0) := by
  induction touched with
  | nil => intro cov k _; simp [bumpCoverage]
  | cons t ts ih =>
    intro cov k hnd
    rw [List.nodup_cons] at hnd
    rw [show bumpCoverage cov (t :: ts) = bumpCoverage (dictAdd cov t 1) ts from rfl]
    rw [ih _ k hnd.2, lookupD_dictAdd]
    by_cases h : k = t
    · have hts : k ∉ ts := h ▸ hnd.1
      simp [h, hts, hnd.1]
    · have : t ≠ k := fun hh => h hh.symm
      simp only [List.mem_cons, this, if_false]
      by_cases h2 : k ∈ ts <;> simp [h, h2]

/-! ### Lemmas about the accumulation over answers -/

theorem foldl_tallyAnswer_scores_lookup (bank : List Question) (weights : List (Nat × Nat))
    (aliases : List (String × String)) (answers : List Answer) : ∀ (t : Tally) (k : String),
    lookupD (answers.foldl (tallyAnswer bank weights aliases) t).scores k 0
      = lookupD t.scores k 0
        + (answers.map (answerContribution bank weights aliases k)).sum := by
  induction answers with
  | nil => intro t k; simp
  | cons a answers ih =>
    intro t k
    simp only [List.foldl_cons, List.map_cons, List.sum_cons]
    rw [ih]
    have hstep : lookupD (tallyAnswer bank weights aliases t a).scores k 0
        = lookupD t.scores k 0 + answerContribution bank weights aliases k a := by
      cases h : matchedOption bank a with
      | none => simp [tallyAnswer, answerContribution, h]
      | some pm =>
        simp only [tallyAnswer, answerContribution, h, scoreEntries]
        exact foldl_scoreStep_fst_lookup aliases (weightOf weights a.question_id) pm t.scores [] k
    rw [hstep]
    omega

theorem foldl_tallyAnswer_coverage_lookup (bank : List Question) (weights : List (Nat × Nat))
    (aliases : List (String × String)) (answers : List Answer) : ∀ (t : Tally) (k : String),
    lookupD (answers.foldl (tallyAnswer bank weights aliases) t).coverage k 0
      = lookupD t.coverage k 0
        + (answers.map
            (fun a => if answerTouches bank aliases k a then 1 else 0)).sum := by
  induction answers with
  | nil => intro t k; simp
  | cons a answers ih =>
    intro t k
    simp only [List.foldl_cons, List.map_cons, List.sum_cons]
    rw [ih]
    have hstep : lookupD (tallyAnswer bank weights aliases t a).coverage k 0
        = lookupD t.coverage k 0
          + (if answerTouches bank aliases k a then 1 else 0) := by
      cases h : matchedOption bank a with
      | none => simp [tallyAnswer, answerTouches, h]
      | some pm =>
        simp only [tallyAnswer, answerTouches, h, scoreEntries]
        rw [lookupD_bumpCoverage _ _ _
          (foldl_scoreStep_snd_nodup aliases (weightOf weights a.question_id) pm
            t.scores [] List.nodup_nil)]
        have hiff : (k ∈ (pm.foldl (scoreStep aliases (weightOf weights a.question_id))
            (t.scores, [])).2) ↔ (pm.any (fun e => canon aliases e.1 == k) = true) := by
          rw [foldl_scoreStep_snd_mem]
          simp [List.any_eq_true]
        rw [if_congr hiff rfl rfl]
    rw [hstep]
    omega

theorem foldl_tallyAnswer_scores_keys_mem (bank : List Question) (weights : List (Nat × Nat))
    (aliases : List (String × String)) (answers : List Answer) : ∀ (t : Tally) (k : String),
    k ∈ (answers.foldl (tallyAnswer bank weights aliases) t).scores.map Prod.fst
      ↔ k ∈ t.scores.map Prod.fst
        ∨ ∃ a ∈ answers, answerTouches bank aliases k a = true := by
  induction answers with
  | nil => intro t k; simp
  | cons a answers ih =>
    intro t k
    simp only [List.foldl_cons]
    rw [ih]
    have hstep : k ∈ (tallyAnswer bank weights aliases t a).scores.map Prod.fst
        ↔ k ∈ t.scores.map Prod.fst ∨ answerTouches bank aliases k a = true := by
      cases h : matchedOption bank a with
      | none => simp [tallyAnswer, answerTouches, h]
      | some pm =>
        simp only [tallyAnswer, answerTouches, h, scoreEntries]
        rw [foldl_scoreStep_fst_keys_mem]
        simp [List.any_eq_true]
    rw [hstep]
    simp only [List.mem_cons]
    constructor
    · rintro ((h | h) | ⟨a', ha', h⟩)
      · exact Or.inl h
      · exact Or.inr ⟨a, Or.inl rfl, h⟩
      · exact Or.inr ⟨a', Or.inr ha', h⟩
    · rintro (h | ⟨a', (ha' | ha'), h⟩)
      · exact Or.inl (Or.inl h)
      · exact Or.inl (Or.inr (ha' ▸ h))
      · exact Or.inr ⟨a', ha', h⟩

theorem foldl_tallyAnswer_scores_keys_nodup (bank : List Question)
    (weights : List (Nat × Nat)) (aliases : List (String × String))
    (answers : List Answer) : ∀ (t : Tally), (t.scores.map Prod.fst).Nodup →
    ((answers.foldl (tallyAnswer bank weights aliases) t).scores.map Prod.fst).Nodup := by
  induction answers with
  | nil => intro t h; simpa using h
  | cons a answers ih =>
    intro t h
    simp only [List.foldl_cons]
    refine ih _ ?_
    cases hm : matchedOption bank a with
    | none => simpa [tallyAnswer, hm] using h
    | some pm =>
      simp only [tallyAnswer, hm, scoreEntries]
      exact foldl_scoreStep_fst_keys_nodup aliases _ pm t.scores [] h

theorem tallyAnswer_unmatched (bank : List Question) (weights : List (Nat × Nat))
    (aliases : List (String × String)) (t : Tally) (a : Answer)
    (h : matchedOption bank a = none) :
    tallyAnswer bank weights aliases t a = t := by
  simp [tallyAnswer, h]

theorem foldl_tallyAnswer_all_unmatched (bank : List Question) (weights : List (Nat × Nat))
    (aliases : List (String × String)) (answers : List Answer) : ∀ (t : Tally),
    (∀ a ∈ answers, matchedOption bank a = none) →
    answers.foldl (tallyAnswer bank weights aliases) t = t := by
  induction answers with
  | nil => intro t _; rfl
  | cons a answers ih =>
    intro t h
    simp only [List.foldl_cons]
    rw [tallyAnswer_unmatched bank weights aliases t a (h a (List.mem_cons_self a answers))]
    exact ih t (fun a' ha' => h a' (List.mem_cons_of_mem a ha'))

/-! ### Lemmas about the maximum-possible-score loop -/

theorem foldl_maxStep (bank : List Question) (weights : List (Nat × Nat))
    (answers : List Answer) : ∀ (acc : Nat),
    answers.foldl (maxStep bank weights) acc
      = acc + (answers.map (fun a =>
          match findQuestion bank a.question_id with
          | none => 0
          | some q => maxOptionPoints q * weightOf weights a.question_id)).sum := by
  induction answers with
  | nil => intro acc; simp
  | cons a answers ih =>
    intro acc
    simp only [List.foldl_cons, List.map_cons, List.sum_cons]
    rw [ih]
    cases h : findQuestion bank a.question_id with
    | none => simp [maxStep, h]
    | some q =>
      simp only [maxStep, h]
      rw [Nat.add_assoc]

theorem foldl_max_entries (l : List (String × Nat)) : ∀ m : Nat,
    l.foldl (fun m2 e => Nat.max m2 e.2) m = Nat.max m ((l.map Prod.snd).foldr Nat.max 0) := by
  induction l with
  | nil => intro m; simp
  | cons e l ih =>
    intro m
    simp only [List.foldl_cons, List.map_cons, List.foldr_cons]
    rw [ih]
    exact Nat.max_assoc _ _ _

theorem foldr_max_append (l1 l2 : List Nat) :
    (l1 ++ l2).foldr Nat.max 0 = Nat.max (l1.foldr Nat.max 0) (l2.foldr Nat.max 0) := by
  induction l1 with
  | nil => simp
  | cons x l1 ih =>
    simp only [List.cons_append, List.foldr_cons, ih]
    exact (Nat.max_assoc _ _ _).symm

theorem foldl_options_max (opts : List (String × List (String × Nat))) : ∀ m : Nat,
    opts.foldl (fun m1 o => o.2.foldl (fun m2 e => Nat.max m2 e.2) m1) m
      = Nat.max m (((opts.map (fun o => o.2.map Prod.snd)).flatten).foldr Nat.max 0) := by
  induction opts with
  | nil => intro m; simp
  | cons o opts ih =>
    intro m
    simp only [List.foldl_cons, List.map_cons, List.flatten_cons]
    rw [ih, foldl_max_entries, foldr_max_append]
    exact Nat.max_assoc _ _ _

theorem maxOptionPoints_eq_maxBasePoints (q : Question) :
    maxOptionPoints q = maxBasePoints q := by
  unfold maxOptionPoints maxBasePoints
  rw [foldl_options_max]
  exact Nat.zero_max _

theorem mem_le_foldr_max (l : List Nat) (x : Nat) (h : x ∈ l) : x ≤ l.foldr Nat.max 0 := by
  induction l with
  | nil => simp at h
  | cons y l ih =>
    rcases List.mem_cons.mp h with h1 | h1
    · exact h1 ▸ Nat.le_max_left _ _
    · exact (ih h1).trans (Nat.le_max_right _ _)

/-! ### Lemmas about the ranking sort -/

theorem keyGE_rfl (p : Nat × Nat) : keyGE p p := Or.inr ⟨rfl, Nat.le_refl _⟩

theorem keyGE_total (p q : Nat × Nat) : keyGE p q ∨ keyGE q p := by
  unfold keyGE; omega

theorem keyGE_trans (p q r : Nat × Nat) (h1 : keyGE p q) (h2 : keyGE q r) : keyGE p r := by
  unfold keyGE at h1 h2 ⊢; omega

theorem filter_orderedInsert_neg {α : Type} (r : α → α → Prop) [DecidableRel r]
    (p : α → Bool) (x : α) (hx : p x = false) :
    ∀ l : List α, (List.orderedInsert r x l).filter p = l.filter p := by
  intro l
  induction l with
  | nil => simp [List.orderedInsert, hx]
  | cons b l ih =>
    by_cases h : r x b
    · simp [List.orderedInsert, h, List.filter_cons, hx]
    · simp only [List.orderedInsert, if_neg h, List.filter_cons, ih]

theorem filter_orderedInsert_pos {α : Type} (r : α → α → Prop) [DecidableRel r]
    (p : α → Bool) (x : α) (hx : p x = true)
    (hall : ∀ b, p b = true → r x b) :
    ∀ l : List α, (List.orderedInsert r x l).filter p = x :: l.filter p := by
  intro l
  induction l with
  | nil => simp [List.orderedInsert, hx]
  | cons b l ih =>
    by_cases h : r x b
    · simp [List.orderedInsert, h, List.filter_cons, hx]
    · have hb : p b = false := by
        cases hpb : p b
        · rfl
        · exact absurd (hall b hpb) h
      simp [List.orderedInsert, h, List.filter_cons, hb, ih]

theorem filter_insertionSort {α : Type} (r : α → α → Prop) [DecidableRel r]
    (p : α → Bool) (hp : ∀ a b, p a = true → p b = true → r a b) :
    ∀ l : List α, (List.insertionSort r l).filter p = l.filter p := by
  intro l
  induction l with
  | nil => rfl
  | cons x l ih =>
    simp only [List.insertionSort]
    cases hx : p x
    · rw [filter_orderedInsert_neg r p x hx, ih]
      simp [List.filter_cons, hx]
    · rw [filter_orderedInsert_pos r p x hx (fun b hb => hp x b hx hb), ih]
      simp [List.filter_cons, hx]

/-! ### Lemmas about the top-3 output loop -/

theorem buildRecommendations_map_key (religions : List (String × TraditionInfo))
    (mp : Nat) : ∀ (l : List (String × Nat)) (slots : Nat), 1 ≤ slots →
    (buildRecommendations religions mp slots l).map Recommendation.key
      = ((l.map Prod.fst).filter (fun k => (lookupO religions k).isSome)).take slots := by
  intro l
  induction l with
  | nil => intro slots _; simp [buildRecommendations]
  | cons e l ih =>
    intro slots hs
    cases hr : lookupO religions e.1 with
    | none =>
      simp only [buildRecommendations, hr, List.map_cons, List.filter_cons]
      rw [ih slots hs]
      simp [hr]
    | some info =>
      obtain ⟨m, rfl⟩ : ∃ m, slots = m + 1 := ⟨slots - 1, by omega⟩
      by_cases h1 : m = 0
      · subst h1
        simp [buildRecommendations, hr]
      · have hif : ¬ (m + 1 ≤ 1) := by omega
        simp only [buildRecommendations, hr, hif, if_false, List.map_cons,
          List.filter_cons]
        rw [show m + 1 - 1 = m from rfl, ih m (by omega)]
        simp [hr, List.take_succ_cons]

theorem buildRecommendations_mem (religions : List (String × TraditionInfo))
    (mp : Nat) : ∀ (l : List (String × Nat)) (slots : Nat) (r : Recommendation),
    r ∈ buildRecommendations religions mp slots l →
    ∃ e ∈ l, lookupO religions e.1 = some r.info ∧ r.key = e.1 ∧ r.score = e.2
      ∧ r.percentage = percentageOf mp e.2 := by
  intro l
  induction l with
  | nil => intro slots r h; simp [buildRecommendations] at h
  | cons e l ih =>
    intro slots r h
    cases hr : lookupO religions e.1 with
    | none =>
      simp only [buildRecommendations, hr] at h
      obtain ⟨e', he', h'⟩ := ih slots r h
      exact ⟨e', List.mem_cons_of_mem _ he', h'⟩
    | some info =>
      simp only [buildRecommendations, hr] at h
      by_cases h1 : slots ≤ 1
      · rw [if_pos h1] at h
        rcases List.mem_singleton.mp h with rfl
        exact ⟨e, List.mem_cons_self _ _, hr, rfl, rfl, rfl⟩
      · rw [if_neg h1] at h
        rcases List.mem_cons.mp h with h2 | h2
        · rcases h2 with rfl
          exact ⟨e, List.mem_cons_self _ _, hr, rfl, rfl, rfl⟩
        · obtain ⟨e', he', h'⟩ := ih (slots - 1) r h2
          exact ⟨e', List.mem_cons_of_mem _ he', h'⟩

/-! ### Lemmas about the rounding -/

theorem pyRound_le (n d B : Nat) (hd : 0 < d) (h : n ≤ B * d) : pyRound n d ≤ B := by
  have hq : n / d ≤ B :=
    le_trans (Nat.div_le_div_right h) (le_of_eq (Nat.mul_div_cancel B hd))
  have hsucc : 0 < n % d → n / d + 1 ≤ B := by
    intro hr
    rcases Nat.lt_or_ge (n / d) B with h' | h'
    · omega
    · exfalso
      have hqB : n / d = B := Nat.le_antisymm hq h'
      have hn : d * B + n % d = n := by rw [← hqB]; exact Nat.div_add_mod n d
      have hlt : B * d < n := by rw [Nat.mul_comm]; omega
      omega
  simp only [pyRound]
  split_ifs with h1 h2 h3
  · exact hq
  · exact hsucc (by omega)
  · exact hq
  · exact hsucc (by omega)

/-! ### Bound and positivity lemmas -/

theorem matchedOption_some {bank : List Question} {a : Answer} {pm : List (String × Nat)}
    (h : matchedOption bank a = some pm) :
    ∃ q, findQuestion bank a.question_id = some q
      ∧ lookupO q.options a.answer = some pm := by
  unfold matchedOption at h
  cases hq : findQuestion bank a.question_id with
  | none => rw [hq] at h; simp at h
  | some q => rw [hq] at h; exact ⟨q, rfl, h⟩

theorem filter_canon_sum_le (aliases : List (String × String)) (k : String) (w M : Nat) :
    ∀ pm : List (String × Nat), (pm.map (fun e => canon aliases e.1)).Nodup →
    (∀ e ∈ pm, e.2 ≤ M) →
    ((pm.filter (fun e => canon aliases e.1 == k)).map (fun e => e.2 * w)).sum ≤ M * w := by
  intro pm
  induction pm with
  | nil => intro _ _; simp
  | cons e pm ih =>
    intro hnd hM
    rw [List.map_cons, List.nodup_cons] at hnd
    rw [List.filter_cons]
    by_cases h : canon aliases e.1 = k
    · have hrest : pm.filter (fun e2 => canon aliases e2.1 == k) = [] := by
        apply List.filter_eq_nil_iff.mpr
        intro e2 he2
        simp only [beq_iff_eq]
        intro hc
        exact hnd.1 ((h.trans hc.symm) ▸
          List.mem_map_of_mem (fun e3 => canon aliases e3.1) he2)
      simp only [h, beq_self_eq_true, if_true, List.map_cons, List.sum_cons,
        hrest, List.map_nil, List.sum_nil, Nat.add_zero]
      exact Nat.mul_le_mul_right w (hM e (List.mem_cons_self _ _))
    · simp only [h, beq_iff_eq, if_false]
      exact ih hnd.2 (fun e2 he2 => hM e2 (List.mem_cons_of_mem _ he2))

theorem entry_le_maxBasePoints (q : Question) (lab : String) (pm : List (String × Nat))
    (hopt : lookupO q.options lab = some pm) (e : String × Nat) (he : e ∈ pm) :
    e.2 ≤ maxBasePoints q := by
  have hmem : (lab, pm) ∈ q.options := lookupO_mem hopt
  unfold maxBasePoints
  apply mem_le_foldr_max
  rw [List.mem_flatten]
  exact ⟨pm.map Prod.snd,
    List.mem_map.mpr ⟨(lab, pm), hmem, rfl⟩,
    List.mem_map_of_mem Prod.snd he⟩

theorem answerContribution_le (bank : List Question) (weights : List (Nat × Nat))
    (aliases : List (String × String)) (k : String) (a : Answer)
    (hcol : noAliasCollision bank aliases) :
    answerContribution bank weights aliases k a
      ≤ (match findQuestion bank a.question_id with
         | none => 0
         | some q => maxOptionPoints q * weightOf weights a.question_id) := by
  unfold answerContribution matchedOption
  cases hq : findQuestion bank a.question_id with
  | none => simp
  | some q =>
    cases hopt : lookupO q.options a.answer with
    | none => dsimp only; rw [hopt]; simp
    | some pm =>
      dsimp only
      rw [hopt]
      have hqmem : q ∈ bank := List.mem_of_find?_eq_some hq
      have homem : (a.answer, pm) ∈ q.options := lookupO_mem hopt
      have hnd := hcol q hqmem (a.answer, pm) homem
      rw [maxOptionPoints_eq_maxBasePoints]
      exact filter_canon_sum_le aliases k (weightOf weights a.question_id)
        (maxBasePoints q) pm hnd
        (fun e he => entry_le_maxBasePoints q a.answer pm hopt e he)

theorem scoreOf_le_maxPossible (bank : List Question) (weights : List (Nat × Nat))
    (aliases : List (String × String)) (answers : List Answer) (k : String)
    (hcol : noAliasCollision bank aliases) :
    scoreOf bank weights aliases answers k ≤ maxPossibleScore bank weights answers := by
  unfold scoreOf tally maxPossibleScore
  rw [foldl_tallyAnswer_scores_lookup, foldl_maxStep]
  simp only [lookupD, Nat.zero_add]
  exact List.sum_le_sum (fun a _ => answerContribution_le bank weights aliases k a hcol)

theorem weightOf_pos (weights : List (Nat × Nat)) (qid : Nat)
    (hw : ∀ w ∈ weights, 0 < w.2) : 0 < weightOf weights qid := by
  unfold weightOf
  induction weights with
  | nil => simp [lookupD]
  | cons e m ih =>
    rw [lookupD]
    by_cases h : e.1 = qid
    · rw [if_pos h]; exact hw e (List.mem_cons_self _ _)
    · rw [if_neg h]; exact ih (fun w hwm => hw w (List.mem_cons_of_mem _ hwm))

theorem answerContribution_pos (bank : List Question) (weights : List (Nat × Nat))
    (aliases : List (String × String)) (k : String) (a : Answer)
    (hpts : ∀ q ∈ bank, ∀ o ∈ q.options, ∀ e ∈ o.2, 0 < e.2)
    (hw : ∀ w ∈ weights, 0 < w.2)
    (ht : answerTouches bank aliases k a = true) :
    0 < answerContribution bank weights aliases k a := by
  unfold answerTouches at ht
  unfold answerContribution
  cases hm : matchedOption bank a with
  | none => rw [hm] at ht; simp at ht
  | some pm =>
    rw [hm] at ht
    simp only
    rw [List.any_eq_true] at ht
    obtain ⟨e, he, hc⟩ := ht
    obtain ⟨q, hq, hopt⟩ := matchedOption_some hm
    have hepos : 0 < e.2 :=
      hpts q (List.mem_of_find?_eq_some hq) (a.answer, pm) (lookupO_mem hopt) e he
    have hwpos : 0 < weightOf weights a.question_id := weightOf_pos weights _ hw
    have hmemf : e ∈ pm.filter (fun e2 => canon aliases e2.1 == k) :=
      List.mem_filter.mpr ⟨he, hc⟩
    have hle := List.single_le_sum (l := (pm.filter (fun e2 => canon aliases e2.1 == k)).map
        (fun e2 => e2.2 * weightOf weights a.question_id))
      (fun x _ => Nat.zero_le x) _
      (List.mem_map_of_mem (fun e2 => e2.2 * weightOf weights a.question_id) hmemf)
    have := Nat.mul_pos hepos hwpos
    omega

theorem scoreOf_pos (bank : List Question) (weights : List (Nat × Nat))
    (aliases : List (String × String)) (answers : List Answer) (k : String)
    (hpts : ∀ q ∈ bank, ∀ o ∈ q.options, ∀ e ∈ o.2, 0 < e.2)
    (hw : ∀ w ∈ weights, 0 < w.2)
    (a : Answer) (ha : a ∈ answers)
    (ht : answerTouches bank aliases k a = true) :
    0 < scoreOf bank weights aliases answers k := by
  unfold scoreOf tally
  rw [foldl_tallyAnswer_scores_lookup]
  have hpos := answerContribution_pos bank weights aliases k a hpts hw ht
  have hle := List.single_le_sum
    (l := answers.map (answerContribution bank weights aliases k))
    (fun x _ => Nat.zero_le x) _
    (List.mem_map_of_mem (answerContribution bank weights aliases k) ha)
  simp only [lookupD]
  omega

theorem mem_tally_scores (bank : List Question) (weights : List (Nat × Nat))
    (aliases : List (String × String)) (answers : List Answer) (e : String × Nat)
    (he : e ∈ (tally bank weights aliases answers).scores) :
    e.2 = scoreOf bank weights aliases answers e.1
      ∧ ∃ a ∈ answers, answerTouches bank aliases e.1 a = true := by
  obtain ⟨k, v⟩ := e
  constructor
  · have hnd : (((tally bank weights aliases answers).scores).map Prod.fst).Nodup := by
      unfold tally
      exact foldl_tallyAnswer_scores_keys_nodup bank weights aliases answers ⟨[], []⟩
        (by simp)
    exact (mem_lookupD_of_nodup hnd he).symm
  · have hmem : k ∈ ((tally bank weights aliases answers).scores).map Prod.fst :=
      List.mem_map_of_mem Prod.fst he
    unfold tally at hmem
    rcases (foldl_tallyAnswer_scores_keys_mem bank weights aliases answers
      ⟨[], []⟩ k).mp hmem with h | h
    · simp at h
    · exact h

/-! ### Claim theorems -/

/-- C1: For every question bank, weight table, alias table and answer list,
and for every canonical tradition key, the accumulated score of that key
equals the sum, over all answers whose question id is found in the bank and
whose option label exists in that question's option map, of (base point
value times question weight, weight defaulting to 1) taken over the
contribution-map entries whose key canonicalises to it; consequently, for
two answer sets covering disjoint questions, the score of their union
(concatenation) equals the per-key sum of their separate scores. -/
theorem score_accumulation_sum_and_additive
    (bank : List Question) (weights : List (Nat × Nat)) (aliases : List (String × String))
    (answers A B : List Answer) (k : String)
    (hdisj : ∀ a ∈ A, ∀ b ∈ B, a.question_id ≠ b.question_id) :
    scoreOf bank weights aliases answers k
        = (answers.map (answerContribution bank weights aliases k)).sum
      ∧ scoreOf bank weights aliases (A ++ B) k
        = scoreOf bank weights aliases A k + scoreOf bank weights aliases B k := by
  have hchar : ∀ ans : List Answer, scoreOf bank weights aliases ans k
      = (ans.map (answerContribution bank weights aliases k)).sum := by
    intro ans
    unfold scoreOf tally
    rw [foldl_tallyAnswer_scores_lookup]
    simp [lookupD]
  refine ⟨hchar answers, ?_⟩
  rw [hchar, hchar, hchar, List.map_append, List.sum_append]

/-- Witness for C1 at a concrete disjoint pair of answer sets. -/
theorem score_accumulation_sum_and_additive_witness :
    (∀ a ∈ ([⟨1, "A"⟩] : List Answer), ∀ b ∈ ([⟨2, "B"⟩] : List Answer),
        a.question_id ≠ b.question_id)
    ∧ scoreOf twoQuestionBank [] [] ([⟨1, "A"⟩] ++ [⟨2, "B"⟩]) "buddhism"
        = scoreOf twoQuestionBank [] [] [⟨1, "A"⟩] "buddhism"
          + scoreOf twoQuestionBank [] [] [⟨2, "B"⟩] "buddhism" :=
  ⟨by decide,
   (score_accumulation_sum_and_additive twoQuestionBank [] []
      ([⟨1, "A"⟩] ++ [⟨2, "B"⟩]) [⟨1, "A"⟩] [⟨2, "B"⟩] "buddhism" (by decide)).2⟩

/-- C2: the percentage denominator equals the sum, over all answers whose
question id is found in the bank, of the question's weight times the
maximum base-point value occurring across any option of that question,
regardless of which option was chosen; answers referencing an unknown
question id contribute zero. -/
theorem maxPossible_denominator (bank : List Question) (weights : List (Nat × Nat))
    (answers : List Answer) :
    maxPossibleScore bank weights answers
      = (answers.map (fun a =>
          match findQuestion bank a.question_id with
          | none => 0
          | some q => weightOf weights a.question_id * maxBasePoints q)).sum := by
  unfold maxPossibleScore
  rw [foldl_maxStep]
  simp only [Nat.zero_add]
  have hfun : (fun a : Answer =>
      match findQuestion bank a.question_id with
      | none => 0
      | some q => maxOptionPoints q * weightOf weights a.question_id)
      = (fun a : Answer =>
      match findQuestion bank a.question_id with
      | none => 0
      | some q => weightOf weights a.question_id * maxBasePoints q) := by
    funext a
    cases h : findQuestion bank a.question_id with
    | none => rfl
    | some q => simp [maxOptionPoints_eq_maxBasePoints, Nat.mul_comm]
  rw [hfun]

/-- C3: normalize maps a raw key to the alias-table value when the key is
present in the alias table and to the key itself otherwise; for a matched
answer, all contribution-map entries canonicalising to the same key merge
into the single accumulator entry of that key (their weighted points are
summed and the accumulator holds each key once), and the coverage counter
of the key is incremented exactly once for the question, not once per raw
key. -/
theorem canon_lookup_and_alias_folding
    (bank : List Question) (weights : List (Nat × Nat)) (aliases : List (String × String))
    (a : Answer) (pm : List (String × Nat)) (k : String) :
    (∀ raw v, lookupO aliases raw = some v → canon aliases raw = v)
    ∧ (∀ raw, lookupO aliases raw = none → canon aliases raw = raw)
    ∧ (matchedOption bank a = some pm →
        scoreOf bank weights aliases [a] k
          = ((pm.filter (fun e => canon aliases e.1 == k)).map
              (fun e => e.2 * weightOf weights a.question_id)).sum
        ∧ coverageOf bank weights aliases [a] k
          = (if pm.any (fun e => canon aliases e.1 == k) then 1 else 0)
        ∧ (((tally bank weights aliases [a]).scores).map Prod.fst).Nodup) := by
  refine ⟨?_, ?_, ?_⟩
  · intro raw v h
    unfold canon
    rw [lookupD_eq_getD, h]
    rfl
  · intro raw h
    unfold canon
    rw [lookupD_eq_getD, h]
    rfl
  · intro hm
    refine ⟨?_, ?_, ?_⟩
    · unfold scoreOf tally
      rw [foldl_tallyAnswer_scores_lookup]
      simp [lookupD, answerContribution, hm]
    · unfold coverageOf tally
      rw [foldl_tallyAnswer_coverage_lookup]
      simp only [lookupD, answerTouches, List.map_cons, List.map_nil, List.sum_cons,
        List.sum_nil, Nat.zero_add, Nat.add_zero]
      have hiff : ((match matchedOption bank a with
          | none => false
          | some pm2 => pm2.any fun e => canon aliases e.1 == k) = true)
          ↔ ((pm.any fun e => canon aliases e.1 == k) = true) := by
        rw [hm]
      rw [if_congr hiff rfl rfl]
    · unfold tally
      exact foldl_tallyAnswer_scores_keys_nodup bank weights aliases [a] ⟨[], []⟩ (by simp)

/-- Witness for C3: in `collisionBank` the option contributes
("wicca", 3) and ("paganism", 2) in the same map; with the shipped alias
table the merged paganism score is 5 and its coverage is 1. -/
theorem canon_lookup_and_alias_folding_witness :
    canon TRADITION_ALIASES "wicca" = "paganism"
    ∧ canon TRADITION_ALIASES "buddhism" = "buddhism"
    ∧ scoreOf collisionBank [] TRADITION_ALIASES [⟨1, "A"⟩] "paganism" = 5
    ∧ coverageOf collisionBank [] TRADITION_ALIASES [⟨1, "A"⟩] "paganism" = 1 := by
  obtain ⟨h1, h2, h3⟩ := canon_lookup_and_alias_folding collisionBank [] TRADITION_ALIASES
    ⟨1, "A"⟩ [("wicca", 3), ("paganism", 2)] "paganism"
  have hm : matchedOption collisionBank ⟨1, "A"⟩ = some [("wicca", 3), ("paganism", 2)] := by
    decide
  obtain ⟨hs, hc, -⟩ := h3 hm
  refine ⟨h1 "wicca" "paganism" (by decide), h2 "buddhism" (by decide), ?_, ?_⟩
  · rw [hs]; decide
  · rw [hc]; decide

/-- C4: the ranked list is ordered by descending score with coverage as the
descending tie-break (lexicographic ≥ on sort keys holds pairwise along the
list); entries whose sort key is equal keep the accumulator's
first-encountered order (the filter at any fixed sort key is unchanged),
and the ranked list is a permutation of the accumulator. -/
theorem ranking_order_deterministic
    (bank : List Question) (weights : List (Nat × Nat)) (aliases : List (String × String))
    (answers : List Answer) :
    (rankedScores (tally bank weights aliases answers).coverage
        (tally bank weights aliases answers).scores).Pairwise
      (fun x y => keyGE (sortKey (tally bank weights aliases answers).coverage x)
        (sortKey (tally bank weights aliases answers).coverage y))
    ∧ (∀ v : Nat × Nat,
        (rankedScores (tally bank weights aliases answers).coverage
            (tally bank weights aliases answers).scores).filter
          (fun x => sortKey (tally bank weights aliases answers).coverage x == v)
        = ((tally bank weights aliases answers).scores).filter
            (fun x => sortKey (tally bank weights aliases answers).coverage x == v))
    ∧ (rankedScores (tally bank weights aliases answers).coverage
        (tally bank weights aliases answers).scores).Perm
      ((tally bank weights aliases answers).scores) := by
  set cov := (tally bank weights aliases answers).coverage with hcov
  set sc := (tally bank weights aliases answers).scores with hsc
  haveI ht : IsTotal (String × Nat) (fun x y => keyGE (sortKey cov x) (sortKey cov y)) :=
    ⟨fun x y => keyGE_total _ _⟩
  haveI htr : IsTrans (String × Nat) (fun x y => keyGE (sortKey cov x) (sortKey cov y)) :=
    ⟨fun x y z h1 h2 => keyGE_trans _ _ _ h1 h2⟩
  refine ⟨?_, ?_, ?_⟩
  · exact List.sorted_insertionSort _ sc
  · intro v
    exact filter_insertionSort _ _
      (fun x y hx hy => by
        rw [beq_iff_eq] at hx hy
        rw [hx, hy]
        exact keyGE_rfl v) sc
  · exact List.perm_insertionSort _ sc

/-- C5: at most 3 recommendations, in ranked order; ranked keys without a
tradition descriptor are skipped and do not count toward the 3; the output
is empty when no answer matched a known question id together with a known
option label. -/
theorem top3_cap_and_empty
    (bank : List Question) (weights : List (Nat × Nat)) (aliases : List (String × String))
    (religions : List (String × TraditionInfo)) (answers : List Answer) :
    (calculate_results bank weights aliases religions answers).length ≤ 3
    ∧ (calculate_results bank weights aliases religions answers).map Recommendation.key
        = (((rankedScores (tally bank weights aliases answers).coverage
              (tally bank weights aliases answers).scores).map Prod.fst).filter
            (fun k => (lookupO religions k).isSome)).take 3
    ∧ ((∀ a ∈ answers, matchedOption bank a = none) →
        calculate_results bank weights aliases religions answers = []) := by
  have hcr : calculate_results bank weights aliases religions answers
      = buildRecommendations religions (maxPossibleScore bank weights answers) 3
          (rankedScores (tally bank weights aliases answers).coverage
            (tally bank weights aliases answers).scores) := rfl
  have hkey := buildRecommendations_map_key religions
    (maxPossibleScore bank weights answers)
    (rankedScores (tally bank weights aliases answers).coverage
      (tally bank weights aliases answers).scores) 3 (by omega)
  refine ⟨?_, ?_, ?_⟩
  · calc (calculate_results bank weights aliases religions answers).length
        = ((calculate_results bank weights aliases religions answers).map
            Recommendation.key).length := (List.length_map _ _).symm
    _ ≤ 3 := by rw [hcr, hkey]; exact List.length_take_le _ _
  · rw [hcr, hkey]
  · intro h
    have ht : tally bank weights aliases answers = ⟨[], []⟩ := by
      unfold tally
      exact foldl_tallyAnswer_all_unmatched bank weights aliases answers ⟨[], []⟩ h
    rw [hcr, ht]
    rfl

/-- Witness for C5: a single answer matching no question of the bank
produces the empty recommendation list. -/
theorem top3_cap_and_empty_witness :
    calculate_results twoQuestionBank [] [] RELIGIONS [⟨1, "zzz"⟩] = [] :=
  (top3_cap_and_empty twoQuestionBank [] [] RELIGIONS [⟨1, "zzz"⟩]).2.2 (by decide)

/-- C6: the engine is a total function of its input; an answer with an
unknown question id or unknown option label contributes nothing to scores
or coverage, an unknown question id also contributes nothing to the
denominator, and when the denominator is 0 every emitted percentage is 0
rather than a division fault. -/
theorem engine_never_faults
    (bank : List Question) (weights : List (Nat × Nat)) (aliases : List (String × String))
    (religions : List (String × TraditionInfo)) (answers : List Answer) (a : Answer) :
    (matchedOption bank a = none →
      tally bank weights aliases (answers ++ [a]) = tally bank weights aliases answers)
    ∧ (findQuestion bank a.question_id = none →
      maxPossibleScore bank weights (answers ++ [a])
        = maxPossibleScore bank weights answers)
    ∧ (maxPossibleScore bank weights answers = 0 →
      ∀ r ∈ calculate_results bank weights aliases religions answers,
        r.percentage = 0) := by
  refine ⟨?_, ?_, ?_⟩
  · intro h
    unfold tally
    rw [List.foldl_append]
    simp [tallyAnswer, h]
  · intro h
    unfold maxPossibleScore
    rw [List.foldl_append]
    simp [maxStep, h]
  · intro h r hr
    obtain ⟨e, _, _, _, _, hperc⟩ :=
      buildRecommendations_mem religions (maxPossibleScore bank weights answers)
        (rankedScores (tally bank weights aliases answers).coverage
          (tally bank weights aliases answers).scores) 3 r hr
    rw [hperc, h]
    simp [percentageOf]

/-- Witness for C6 at concrete unmatched answers and an empty submission. -/
theorem engine_never_faults_witness :
    tally twoQuestionBank [] [] ([⟨1, "A"⟩] ++ [⟨9, "A"⟩])
        = tally twoQuestionBank [] [] [⟨1, "A"⟩]
    ∧ maxPossibleScore twoQuestionBank [] ([⟨1, "A"⟩] ++ [⟨9, "A"⟩])
        = maxPossibleScore twoQuestionBank [] [⟨1, "A"⟩]
    ∧ ∀ r ∈ calculate_results twoQuestionBank [] [] RELIGIONS [], r.percentage = 0 :=
  ⟨(engine_never_faults twoQuestionBank [] [] RELIGIONS [⟨1, "A"⟩] ⟨9, "A"⟩).1 (by decide),
   (engine_never_faults twoQuestionBank [] [] RELIGIONS [⟨1, "A"⟩] ⟨9, "A"⟩).2.1 (by decide),
   (engine_never_faults twoQuestionBank [] [] RELIGIONS [] ⟨9, "A"⟩).2.2 (by decide)⟩

/-- C7 counterexample: with an alias table folding "wicca" into "paganism"
inside a single contribution map, the non-empty valid one-answer submission
for `collisionBank` accumulates paganism score 5 against denominator 3
(the maximum single option value), and the emitted percentage is 167,
refuting the [0, 100] bound for arbitrary alias tables. -/
theorem percentage_above_100_counterexample :
    validSubmission collisionBank [⟨1, "A"⟩]
    ∧ ([⟨1, "A"⟩] : List Answer) ≠ []
    ∧ ∃ r ∈ calculate_results collisionBank [] [("wicca", "paganism")] RELIGIONS
        [⟨1, "A"⟩], 100 < r.percentage := by
  refine ⟨by decide, by decide, ?_⟩
  decide

/-- C7 amended: assuming additionally that no two raw keys of one
contribution map canonicalise to the same key (which holds for the shipped
QUESTIONS table under TRADITION_ALIASES), every percentage emitted for a
non-empty valid submission is at most 100; emitted percentages are
naturals, hence lie in [0, 100]. -/
theorem percentage_bounds_amended
    (bank : List Question) (weights : List (Nat × Nat)) (aliases : List (String × String))
    (religions : List (String × TraditionInfo)) (answers : List Answer)
    (hcol : noAliasCollision bank aliases)
    (hvalid : validSubmission bank answers)
    (hne : answers ≠ []) :
    ∀ r ∈ calculate_results bank weights aliases religions answers,
      r.percentage ≤ 100 := by
  intro r hr
  obtain ⟨e, he, _, _, _, hperc⟩ :=
    buildRecommendations_mem religions (maxPossibleScore bank weights answers)
      (rankedScores (tally bank weights aliases answers).coverage
        (tally bank weights aliases answers).scores) 3 r hr
  rw [hperc]
  unfold percentageOf
  split_ifs with hmp
  · apply pyRound_le _ _ _ hmp
    unfold rankedScores at he
    have hmem : e ∈ (tally bank weights aliases answers).scores :=
      (List.mem_insertionSort _).mp he
    obtain ⟨hval, -⟩ := mem_tally_scores bank weights aliases answers e hmem
    have hle : e.2 ≤ maxPossibleScore bank weights answers := by
      rw [hval]
      exact scoreOf_le_maxPossible bank weights aliases answers e.1 hcol
    calc e.2 * 100 ≤ maxPossibleScore bank weights answers * 100 :=
        Nat.mul_le_mul_right _ hle
    _ = 100 * maxPossibleScore bank weights answers := Nat.mul_comm _ _
  · omega

/-- Witness for the amended C7 on a collision-free concrete bank. -/
theorem percentage_bounds_amended_witness :
    noAliasCollision oneQuestionBank []
    ∧ validSubmission oneQuestionBank [⟨1, "A"⟩]
    ∧ ([⟨1, "A"⟩] : List Answer) ≠ []
    ∧ ∀ r ∈ calculate_results oneQuestionBank [] [] RELIGIONS [⟨1, "A"⟩],
        r.percentage ≤ 100 :=
  ⟨by decide, by decide, by decide,
   percentage_bounds_amended oneQuestionBank [] [] RELIGIONS [⟨1, "A"⟩]
     (by decide) (by decide) (by decide)⟩

/-- C8 counterexample: the answer (1, "B") names a question id found in
`oneQuestionBank` but a label that is not an option; it contributes nothing
to scores or coverage, yet the max-possible loop still counts
3 = max option points x weight for that question, refuting "zero to the
max-possible-score computation". -/
theorem unknown_label_still_counts_counterexample :
    matchedOption oneQuestionBank ⟨1, "B"⟩ = none
    ∧ (findQuestion oneQuestionBank 1).isSome = true
    ∧ tally oneQuestionBank [] [] [⟨1, "B"⟩] = ⟨[], []⟩
    ∧ maxPossibleScore oneQuestionBank [] [⟨1, "B"⟩] = 3 := by
  decide

/-- C8 amended: an answer whose question id is found but whose option label
is unknown contributes zero to all score accumulators and zero to coverage,
but still adds its question's weighted maximum option points to the
max-possible total; only answers whose question id is not found contribute
zero there. -/
theorem unknown_label_amended
    (bank : List Question) (weights : List (Nat × Nat)) (aliases : List (String × String))
    (answers : List Answer) (a : Answer) (q : Question)
    (hq : findQuestion bank a.question_id = some q)
    (hlabel : lookupO q.options a.answer = none) :
    tally bank weights aliases (answers ++ [a]) = tally bank weights aliases answers
    ∧ maxPossibleScore bank weights (answers ++ [a])
        = maxPossibleScore bank weights answers
          + maxOptionPoints q * weightOf weights a.question_id := by
  have hm : matchedOption bank a = none := by
    unfold matchedOption
    rw [hq]
    exact hlabel
  constructor
  · unfold tally
    rw [List.foldl_append]
    simp [tallyAnswer, hm]
  · unfold maxPossibleScore
    rw [List.foldl_append]
    simp [maxStep, hq]

/-- Witness for the amended C8 at the concrete unknown-label answer. -/
theorem unknown_label_amended_witness :
    tally oneQuestionBank [] [] ([] ++ [⟨1, "B"⟩]) = tally oneQuestionBank [] [] []
    ∧ maxPossibleScore oneQuestionBank [] ([] ++ [⟨1, "B"⟩])
        = maxPossibleScore oneQuestionBank [] []
          + maxOptionPoints oneQuestion * weightOf [] 1 :=
  unknown_label_amended oneQuestionBank [] [] [] ⟨1, "B"⟩ oneQuestion
    (by decide) (by decide)

/-- C9 counterexample: a submission of nine copies of the same answer
passes the length check of /submit_assessment (so scoring runs and an ok
result is produced) although it does not contain exactly one answer per
question id of the bank. -/
theorem length_check_only_counterexample :
    (submit_assessment (List.replicate 9 ⟨1, "A"⟩)).isOk = true
    ∧ ¬ exactlyOnePerQuestion QUESTIONS (List.replicate 9 ⟨1, "A"⟩) := by
  constructor
  · rfl
  · decide

/-- C9 amended: the calling layer rejects, with the structured failure
message, exactly those submissions whose answer count differs from the
number of questions in the bank; any submission with a matching count,
including ones that do not cover each question id exactly once, is passed
to scoring. -/
theorem submit_length_check_amended (answers : List Answer) :
    (answers.length = QUESTIONS.length →
      submit_assessment answers
        = Except.ok (calculate_results QUESTIONS QUESTION_WEIGHTS TRADITION_ALIASES
            RELIGIONS answers))
    ∧ (answers.length ≠ QUESTIONS.length →
      submit_assessment answers = Except.error "Please answer all questions!") := by
  constructor
  · intro h
    unfold submit_assessment
    rw [if_neg (fun hc => hc h)]
  · intro h
    unfold submit_assessment
    rw [if_pos h]

/-- Witness for the amended C9: the duplicate nine-answer submission is
scored, the empty submission is rejected. -/
theorem submit_length_check_amended_witness :
    submit_assessment (List.replicate 9 ⟨1, "A"⟩)
      = Except.ok (calculate_results QUESTIONS QUESTION_WEIGHTS TRADITION_ALIASES RELIGIONS
          (List.replicate 9 ⟨1, "A"⟩))
    ∧ submit_assessment [] = Except.error "Please answer all questions!" :=
  ⟨(submit_length_check_amended (List.replicate 9 ⟨1, "A"⟩)).1 (by decide),
   (submit_length_check_amended []).2 (by decide)⟩

/-- C10: every emitted recommendation corresponds to a canonical key that
received at least one contribution from a matched answer; when all base
points and all weight-table entries are positive, every emitted score is
strictly positive, so zero-score traditions never appear in the output and
there is no zero-score fallback padding. -/
theorem recommendations_from_touched_keys
    (bank : List Question) (weights : List (Nat × Nat)) (aliases : List (String × String))
    (religions : List (String × TraditionInfo)) (answers : List Answer)
    (hpts : ∀ q ∈ bank, ∀ o ∈ q.options, ∀ e ∈ o.2, 0 < e.2)
    (hw : ∀ w ∈ weights, 0 < w.2) :
    ∀ r ∈ calculate_results bank weights aliases religions answers,
      0 < r.score ∧ ∃ a ∈ answers, answerTouches bank aliases r.key a = true := by
  intro r hr
  obtain ⟨e, he, _, hkey, hscore, _⟩ :=
    buildRecommendations_mem religions (maxPossibleScore bank weights answers)
      (rankedScores (tally bank weights aliases answers).coverage
        (tally bank weights aliases answers).scores) 3 r hr
  unfold rankedScores at he
  have hmem : e ∈ (tally bank weights aliases answers).scores :=
    (List.mem_insertionSort _).mp he
  obtain ⟨hval, a, ha, htouch⟩ := mem_tally_scores bank weights aliases answers e hmem
  constructor
  · rw [hscore, hval]
    exact scoreOf_pos bank weights aliases answers e.1 hpts hw a ha htouch
  · rw [hkey]
    exact ⟨a, ha, htouch⟩

/-- Witness for C10 on a concrete positive-scored submission. -/
theorem recommendations_from_touched_keys_witness :
    (∀ q ∈ oneQuestionBank, ∀ o ∈ q.options, ∀ e ∈ o.2, 0 < e.2)
    ∧ ∀ r ∈ calculate_results oneQuestionBank [] [] RELIGIONS [⟨1, "A"⟩],
        0 < r.score
          ∧ ∃ a ∈ ([⟨1, "A"⟩] : List Answer),
              answerTouches oneQuestionBank [] r.key a = true :=
  ⟨by decide,
   recommendations_from_touched_keys oneQuestionBank [] [] RELIGIONS [⟨1, "A"⟩]
     (by decide) (by decide)⟩

end SpiritualPath
